import Mathlib

/-!
# NVMe admin passthrough (`nvme_linux.go`)

A shallow embedding of `nvme_linux.go`: the `nvmePassthruCmd64` command
structure, the two request builders `nvmeReadLogPage` and `nvmeReadIdentify`,
and the two device operations `Identify` and `ReadSMART`.

Conventions of the embedding.

* The fixed-width unsigned integers of Go are natural numbers; every conversion and
  every arithmetic step that can wrap is written with an explicit `% 2 ^ w`.
* `len(s)` is a natural number (it is never negative).
* A Go function that can panic returns an `Outcome`.
* A slice argument that the callee (or the driver, through its address) may
  write is passed in and handed back: the second component of a result is the
  slice as the caller sees it afterwards.
* The operating system is a parameter (`Env.driver`): it sees the requests made
  so far and the present one, and answers with an error or success and with
  the bytes it stored through the data pointer.  Every request is appended to
  `World.log`, so "how many requests were issued, and which" is a statement
  about the log.
* Everything `nvme_linux.go` uses but does not declare (opcodes, the log id,
  `iowr`, the decoders of `encoding/binary` on the record types) is a field of
  `Env`.
* The width of `int` and `uintptr` depends on the platform the program is
  built for (32 or 64 bits); it is the field `Env.intBits`.
-/

namespace Smart

/-! ## Go values -/

/-- A Go `error` value that is not nil. `errorf` is what `fmt.Errorf` builds
from a constant format, `errno` what the `ioctl` helper hands back, `read`
what `binary.Read` hands back. -/
inductive GoError where
  | errorf (msg : String)
  | errno (code : Nat)
  | read (code : Nat)
  deriving DecidableEq, Repr

/-- The result of running a Go function: it returns, or it panics. -/
inductive Outcome (α : Type) where
  | ret (a : α)
  | panic (msg : String)
  deriving DecidableEq, Repr

/-- A `[]byte`: `ptr` is `uintptr(unsafe.Pointer(&s[0]))`, the address of the
first element of the backing array, and `elems` the bytes `s[0..len(s)-1]`. -/
structure Slice where
  ptr : Nat
  elems : List Nat
  deriving DecidableEq, Repr

/-- `uint32(x)` for a non-negative integer `x`. -/
def toUint32 (x : Nat) : Nat := x % 2 ^ 32

/-- `uint64(x)` for a non-negative integer `x`. -/
def toUint64 (x : Nat) : Nat := x % 2 ^ 64

/-- `uintptr(x)` for a signed integer `x`, on a platform whose `uintptr` is
`bits` wide. -/
def toUintptr (bits : Nat) (x : Int) : Nat := (x % (2 : Int) ^ bits).toNat

/-- `int(x)` for an unsigned integer `x`, on a platform whose `int` is `bits`
wide: the low `bits` bits of `x` read as a signed number in two-complement form. -/
def toInt (bits : Nat) (x : Nat) : Int :=
  if x % 2 ^ bits < 2 ^ (bits - 1) then ((x % 2 ^ bits : Nat) : Int)
  else ((x % 2 ^ bits : Nat) : Int) - ((2 ^ bits : Nat) : Int)

/-- `uint32(x)` for a signed integer `x`. -/
def intToUint32 (x : Int) : Nat := (x % (2 : Int) ^ 32).toNat

/-- `a - b` on `uint32`. -/
def subUint32 (a b : Nat) : Nat := (a % 2 ^ 32 + 2 ^ 32 - b % 2 ^ 32) % 2 ^ 32

/-- `a << s` on `uint32`. -/
def shlUint32 (a s : Nat) : Nat := (a <<< s) % 2 ^ 32

/-! ## The command structure -/

/-- The struct `nvmePassthruCmd64`; the two blank fields are `rsvd1` and
`rsvd2`. -/
structure nvmePassthruCmd64 where
  opcode : Nat
  flags : Nat
  rsvd1 : Nat
  nsid : Nat
  cdw2 : Nat
  cdw3 : Nat
  metadata : Nat
  addr : Nat
  metadataLen : Nat
  dataLen : Nat
  cdw10 : Nat
  cdw11 : Nat
  cdw12 : Nat
  cdw13 : Nat
  cdw14 : Nat
  cdw15 : Nat
  timeoutMs : Nat
  rsvd2 : Nat
  result : Nat
  deriving DecidableEq, Repr

/-- The zero value `nvmePassthruCmd64{}`: what a composite literal leaves in
the fields it does not name. -/
def zeroCmd : nvmePassthruCmd64 :=
  { opcode := 0, flags := 0, rsvd1 := 0, nsid := 0, cdw2 := 0, cdw3 := 0,
    metadata := 0, addr := 0, metadataLen := 0, dataLen := 0, cdw10 := 0,
    cdw11 := 0, cdw12 := 0, cdw13 := 0, cdw14 := 0, cdw15 := 0,
    timeoutMs := 0, rsvd2 := 0, result := 0 }

/-- The unsigned integer types that occur as field types. -/
inductive GoUint where
  | uint8
  | uint16
  | uint32
  | uint64
  deriving DecidableEq, Repr

/-- Size in bytes of a value of the type. -/
def GoUint.size : GoUint → Nat
  | .uint8 => 1
  | .uint16 => 2
  | .uint32 => 4
  | .uint64 => 8

/-- Natural alignment: a value is aligned to its own size. -/
def GoUint.align (t : GoUint) : Nat := t.size

/-- The field list of `nvmePassthruCmd64`, in declaration order; the blank
fields are listed under the names `rsvd1` and `rsvd2`. -/
def nvmePassthruCmd64Fields : List (String × GoUint) :=
  [ ("opcode", .uint8), ("flags", .uint8), ("rsvd1", .uint16),
    ("nsid", .uint32), ("cdw2", .uint32), ("cdw3", .uint32),
    ("metadata", .uint64), ("addr", .uint64),
    ("metadataLen", .uint32), ("dataLen", .uint32),
    ("cdw10", .uint32), ("cdw11", .uint32), ("cdw12", .uint32),
    ("cdw13", .uint32), ("cdw14", .uint32), ("cdw15", .uint32),
    ("timeoutMs", .uint32), ("rsvd2", .uint32), ("result", .uint64) ]

/-- Round `off` up to the next multiple of `a`. -/
def alignUp (off a : Nat) : Nat := (off + a - 1) / a * a

/-- Offsets of the fields of a struct laid out from byte `off` on: each field
is placed at the next offset aligned for its type. -/
def layoutFrom : Nat → List (String × GoUint) → List (String × Nat)
  | _, [] => []
  | off, (name, t) :: rest =>
    (name, alignUp off t.align) :: layoutFrom (alignUp off t.align + t.size) rest

/-- The offset just past the last field. -/
def endFrom : Nat → List (String × GoUint) → Nat
  | off, [] => off
  | off, (_, t) :: rest => endFrom (alignUp off t.align + t.size) rest

/-- The alignment of a struct: the largest alignment of a field. -/
def structAlign (fs : List (String × GoUint)) : Nat :=
  fs.foldl (fun a f => max a f.2.align) 1

/-- The value of `unsafe.Sizeof` on a struct: the end of the last field,
rounded up to the alignment of the struct. -/
def structSize (fs : List (String × GoUint)) : Nat :=
  alignUp (endFrom 0 fs) (structAlign fs)

/-- Padding bytes in front of each field. -/
def paddingFrom : Nat → List (String × GoUint) → List Nat
  | _, [] => []
  | off, (_, t) :: rest =>
    (alignUp off t.align - off) :: paddingFrom (alignUp off t.align + t.size) rest

/-! ## Records decoded from the device -/

/-- Modelled from the spec: the declaration of `NvmeIdentController` is not in
`nvme_linux.go`. The code reads one field, the namespace count `Nn`
(a `uint32`); `rest` stands for all other fields. -/
structure NvmeIdentController where
  Nn : Nat
  rest : List Nat
  deriving DecidableEq, Repr

/-- Modelled from the spec: the declaration of `NvmeIdentNamespace` is not in
`nvme_linux.go`. The code reads one field, the namespace size `Nsze`;
`rest` stands for all other fields. -/
structure NvmeIdentNamespace where
  Nsze : Nat
  rest : List Nat
  deriving DecidableEq, Repr

/-- Modelled from the spec: the declaration of `NvmeSMARTLog` is not in
`nvme_linux.go`, and the code reads no field of it; `fields` stands for
its contents. -/
structure NvmeSMARTLog where
  fields : List Nat
  deriving DecidableEq, Repr

/-- Modelled from the spec: the declaration of `NVMeDevice` is not in
`nvme_linux.go`; `OpenNVMe` fills its one field `fd` with the `int` that
`unix.Open` returns. -/
structure NVMeDevice where
  fd : Int
  deriving DecidableEq, Repr

/-! ## The operating system -/

/-- One control request as the driver sees it: the three arguments of `ioctl`
(the third one a pointer, given here as the command it points to) and `mem`,
the bytes at `cmd.addr` when the request is made. -/
structure Call where
  fd : Nat
  req : Nat
  cmd : nvmePassthruCmd64
  mem : List Nat
  deriving DecidableEq, Repr

/-- The answer of the driver: `err` is the error `ioctl` returns (`none` for nil),
`written` the bytes the driver stored from the data pointer on. -/
structure Reply where
  err : Option GoError
  written : List Nat
  deriving DecidableEq, Repr

/-- A request together with its answer. -/
structure Event where
  call : Call
  reply : Reply
  deriving DecidableEq, Repr

/-- What `nvme_linux.go` uses and does not declare. -/
structure Env where
  /-- Width in bits of `int` and of `uintptr` on the platform the program is
  built for: 64 on linux/amd64 and linux/arm64, 32 on linux/386 and
  linux/arm. -/
  intBits : Nat
  /-- The constant `nvmeAdminGetLogPage` (a `uint8`). -/
  nvmeAdminGetLogPage : Nat
  /-- The constant `nvmeAdminIdentify` (a `uint8`). -/
  nvmeAdminIdentify : Nat
  /-- The constant `nvmeLogSmartInformation` (a `uint8`). -/
  nvmeLogSmartInformation : Nat
  /-- The function `iowr(type, nr, size)`. -/
  iowr : Nat → Nat → Nat → Nat
  /-- Address of the array made by the `k`-th call of `make`. -/
  heapAddr : Nat → Nat
  /-- The driver: requests answered so far, the present request, its answer. -/
  driver : List Event → Call → Reply
  /-- The function `binary.Read(bytes.NewBuffer(b), binary.LittleEndian, &c)`
  for an `NvmeIdentController`. -/
  readController : List Nat → Except GoError NvmeIdentController
  /-- The same for an `NvmeIdentNamespace`. -/
  readNamespace : List Nat → Except GoError NvmeIdentNamespace
  /-- The same for an `NvmeSMARTLog`. -/
  readSMARTLog : List Nat → Except GoError NvmeSMARTLog

/-- The state the program runs in: how many arrays `make` has handed out, and
the control requests issued so far, oldest first. -/
structure World where
  allocs : Nat
  log : List Event
  deriving DecidableEq, Repr

/-- The expression `make([]byte, n)`: a new array of `n` zero bytes. -/
def make (env : Env) (n : Nat) (w : World) : Slice × World :=
  (⟨env.heapAddr w.allocs, List.replicate n 0⟩, { w with allocs := w.allocs + 1 })

/-- The bytes of a buffer after the driver stored `written` from its start on;
the buffer keeps its length. -/
def overlay : List Nat → List Nat → List Nat
  | [], _ => []
  | o :: os, [] => o :: os
  | _ :: os, x :: xs => x :: overlay os xs

/-- Modelled from the spec: the helper `ioctl(fd, req, ptr)` is not in
`nvme_linux.go`. It issues one control request and returns its error. Here
the request is answered by `env.driver` and appended to the log; the result
is the error and the contents of the data buffer afterwards. -/
def ioctl (env : Env) (fd req : Nat) (cmd : nvmePassthruCmd64) (mem : List Nat)
    (w : World) : Option GoError × List Nat × World :=
  let call : Call := ⟨fd, req, cmd, mem⟩
  let r := env.driver w.log call
  (r.err, overlay mem r.written, { w with log := w.log ++ [⟨call, r⟩] })

/-! ## nvme_linux.go -/

/-- The value `unsafe.Sizeof(nvmePassthruCmd64{})`. -/
def sizeofCmd : Nat := structSize nvmePassthruCmd64Fields

/-- The variable `nvmeIoctlAdmin64Cmd = iowr(78, 0x47, unsafe.Sizeof(..))`,
where 78 is the character `N`. -/
def nvmeIoctlAdmin64Cmd (env : Env) : Nat := env.iowr 78 0x47 sizeofCmd

/-- The expression `cdw10` of `nvmeReadLogPage`:
`uint32(logID) | (((uint32(bufLen) / 4) - 1) << 16)`. -/
def logPageCdw10 (logID bufLen : Nat) : Nat :=
  toUint32 logID ||| shlUint32 (subUint32 (toUint32 bufLen / 4) 1) 16

/-- The function `nvmeReadLogPage(fd, logID, buf)`. -/
def nvmeReadLogPage (env : Env) (fd : Int) (logID : Nat) (buf : Slice) (w : World) :
    Outcome (Option GoError) × Slice × World :=
  let bufLen := buf.elems.length
  if bufLen < 4 ∨ bufLen > 0x4000 ∨ bufLen % 4 ≠ 0 then
    (.ret (some (.errorf "invalid buffer size")), buf, w)
  else
    match buf.elems with
    | [] => (.panic "index out of range [0] with length 0", buf, w)
    | _ :: _ =>
      let cmd : nvmePassthruCmd64 :=
        { zeroCmd with
          opcode := env.nvmeAdminGetLogPage
          nsid := 0xffffffff
          addr := toUint64 buf.ptr
          dataLen := toUint32 bufLen
          cdw10 := logPageCdw10 logID bufLen }
      let r := ioctl env (toUintptr env.intBits fd) (nvmeIoctlAdmin64Cmd env) cmd buf.elems w
      (.ret r.1, ⟨buf.ptr, r.2.1⟩, r.2.2)

/-- The function `nvmeReadIdentify(fd, nsid, cns, data)`. -/
def nvmeReadIdentify (env : Env) (fd : Int) (nsid cns : Nat) (data : Slice) (w : World) :
    Outcome (Option GoError) × Slice × World :=
  match data.elems with
  | [] => (.panic "index out of range [0] with length 0", data, w)
  | _ :: _ =>
    let cmd : nvmePassthruCmd64 :=
      { zeroCmd with
        opcode := env.nvmeAdminIdentify
        nsid := nsid
        addr := toUint64 data.ptr
        dataLen := toUint32 data.elems.length
        cdw10 := cns }
    let r := ioctl env (toUintptr env.intBits fd) (nvmeIoctlAdmin64Cmd env) cmd data.elems w
    (.ret r.1, ⟨data.ptr, r.2.1⟩, r.2.2)

/-- The loop `for i := 0; i < int(controller.Nn); i++` of `Identify`, entered
with `k` iterations left (`k` is `int(controller.Nn) - i`, so that `i < n`
holds exactly while `k` is not zero), the loop variable `i` and the slice `ns`;
`i + 1` stays below `int(controller.Nn) + 1` and so does not overflow `int`.
It ends with the error of the `return nil, nil, err` it took, or with `ns`. -/
def identifyLoop (env : Env) (fd : Int) :
    Nat → Int → List NvmeIdentNamespace → World →
      Outcome (Except GoError (List NvmeIdentNamespace)) × World
  | 0, _, ns, w => (.ret (.ok ns), w)
  | k + 1, i, ns, w =>
    match nvmeReadIdentify env fd (intToUint32 (i + 1)) 0 (make env 4096 w).1
        (make env 4096 w).2 with
    | (.panic m, _, w2) => (.panic m, w2)
    | (.ret (some err), _, w2) => (.ret (.error err), w2)
    | (.ret none, buf2, w2) =>
      match env.readNamespace buf2.elems with
      | .error err => (.ret (.error err), w2)
      | .ok n =>
        if n.Nsze = 0 then identifyLoop env fd k (i + 1) ns w2
        else identifyLoop env fd k (i + 1) (ns ++ [n]) w2

/-- The method `(d *NVMeDevice) Identify()`: the controller record (`none` for
nil), the namespace slice (`[]` for nil) and the error (`none` for nil). -/
def Identify (env : Env) (d : NVMeDevice) (w : World) :
    Outcome (Option NvmeIdentController × List NvmeIdentNamespace × Option GoError) × World :=
  match nvmeReadIdentify env d.fd 0 1 (make env 4096 w).1 (make env 4096 w).2 with
  | (.panic m, _, w2) => (.panic m, w2)
  | (.ret (some err), _, w2) => (.ret (none, [], some err), w2)
  | (.ret none, buf, w2) =>
    match env.readController buf.elems with
    | .error err => (.ret (none, [], some err), w2)
    | .ok controller =>
      match identifyLoop env d.fd (toInt env.intBits controller.Nn).toNat 0 [] w2 with
      | (.panic m, w3) => (.panic m, w3)
      | (.ret (.error err), w3) => (.ret (none, [], some err), w3)
      | (.ret (.ok ns), w3) => (.ret (some controller, ns, none), w3)

/-- The method `(d *NVMeDevice) ReadSMART()`: the log record (`none` for nil)
and the error (`none` for nil). -/
def ReadSMART (env : Env) (d : NVMeDevice) (w : World) :
    Outcome (Option NvmeSMARTLog × Option GoError) × World :=
  match nvmeReadLogPage env d.fd env.nvmeLogSmartInformation (make env 512 w).1
      (make env 512 w).2 with
  | (.panic m, _, w2) => (.panic m, w2)
  | (.ret (some err), _, w2) => (.ret (none, some err), w2)
  | (.ret none, buf3, w2) =>
    match env.readSMARTLog buf3.elems with
    | .error err => (.ret (none, some err), w2)
    | .ok sl => (.ret (some sl, none), w2)

/-! ## Expected requests and sample devices -/

/-- The command `nvmeReadIdentify` is expected to build. -/
def identifyCmd (env : Env) (nsid cns addr len : Nat) : nvmePassthruCmd64 :=
  { zeroCmd with
    opcode := env.nvmeAdminIdentify
    nsid := nsid
    addr := addr
    dataLen := len
    cdw10 := cns }

/-- The command `nvmeReadLogPage` is expected to build. -/
def logPageCmd (env : Env) (logID addr len : Nat) : nvmePassthruCmd64 :=
  { zeroCmd with
    opcode := env.nvmeAdminGetLogPage
    nsid := 0xffffffff
    addr := addr
    dataLen := len
    cdw10 := logID ||| ((len / 4 - 1) <<< 16) }

/-- The control request that carries `cmd` on descriptor `fd`, with `mem` the
bytes at the data pointer. -/
def adminCall (env : Env) (fd : Int) (cmd : nvmePassthruCmd64) (mem : List Nat) : Call :=
  ⟨toUintptr env.intBits fd, nvmeIoctlAdmin64Cmd env, cmd, mem⟩

/-- The state after one request `c` was issued in `w`. -/
def afterCall (env : Env) (c : Call) (w : World) : World :=
  { w with log := w.log ++ [⟨c, env.driver w.log c⟩] }

/-- The request `Identify` is expected to issue for namespace id `nsid` and
selector `cns`, its buffer being the array of the `k`-th call of `make`. -/
def identifyCall (env : Env) (fd : Int) (nsid cns k : Nat) : Call :=
  adminCall env fd (identifyCmd env nsid cns (toUint64 (env.heapAddr k)) 4096)
    (List.replicate 4096 0)

/-- One step of the loop, given the reply `r` of the driver to the request `c`. -/
def loopStep (env : Env) (fd : Int) (k : Nat) (i : Int) (ns : List NvmeIdentNamespace)
    (w : World) (c : Call) (r : Reply) :
    Outcome (Except GoError (List NvmeIdentNamespace)) × World :=
  match r.err with
  | some err => (.ret (.error err), ⟨w.allocs + 1, w.log ++ [⟨c, r⟩]⟩)
  | none =>
    match env.readNamespace (overlay (List.replicate 4096 0) r.written) with
    | .error err => (.ret (.error err), ⟨w.allocs + 1, w.log ++ [⟨c, r⟩]⟩)
    | .ok n =>
      if n.Nsze = 0 then identifyLoop env fd k (i + 1) ns ⟨w.allocs + 1, w.log ++ [⟨c, r⟩]⟩
      else identifyLoop env fd k (i + 1) (ns ++ [n]) ⟨w.allocs + 1, w.log ++ [⟨c, r⟩]⟩

/-- The requests issued between the states `w` and `w2`. -/
def newEvents (w w2 : World) : List Event := w2.log.drop w.log.length

/-- The state after the controller request of `Identify`. -/
def afterController (env : Env) (d : NVMeDevice) (w : World) : World :=
  ⟨w.allocs + 1, w.log ++ [⟨identifyCall env d.fd 0 1 w.allocs,
    env.driver w.log (identifyCall env d.fd 0 1 w.allocs)⟩]⟩

/-- What `Identify` makes of the end of its loop. -/
def identifyFinish (c : NvmeIdentController)
    (r : Outcome (Except GoError (List NvmeIdentNamespace)) × World) :
    Outcome (Option NvmeIdentController × List NvmeIdentNamespace × Option GoError) × World :=
  match r with
  | (.panic m, w3) => (.panic m, w3)
  | (.ret (.error err), w3) => (.ret (none, [], some err), w3)
  | (.ret (.ok ns), w3) => (.ret (some c, ns, none), w3)

/-- A sample driver: the controller reports three namespaces, namespace 2 has
size zero, the SMART log starts with the byte 1; requests for namespace ids
above 3 fail. -/
def demoDriver (_hist : List Event) (c : Call) : Reply :=
  if c.cmd.opcode = 6 then
    if c.cmd.cdw10 = 1 then ⟨none, [3]⟩
    else if c.cmd.nsid = 2 then ⟨none, [0]⟩
    else if c.cmd.nsid ≤ 3 then ⟨none, [16 * c.cmd.nsid]⟩
    else ⟨some (.errno 22), []⟩
  else ⟨none, [1]⟩

/-- A sample environment: a 64-bit platform, the opcodes of the NVMe
specification, decoders that read the first byte of the buffer. -/
def demoEnv : Env :=
  { intBits := 64
    nvmeAdminGetLogPage := 2
    nvmeAdminIdentify := 6
    nvmeLogSmartInformation := 2
    iowr := fun t nr size => (3 <<< 30) ||| (size <<< 16) ||| (t <<< 8) ||| nr
    heapAddr := fun k => 0xc000010000 + 4096 * k
    driver := demoDriver
    readController := fun b =>
      match b with
      | [] => .error (.read 0)
      | x :: _ => .ok ⟨x, []⟩
    readNamespace := fun b =>
      match b with
      | [] => .error (.read 0)
      | x :: _ => .ok ⟨x, []⟩
    readSMARTLog := fun b =>
      match b with
      | [] => .error (.read 0)
      | x :: _ => .ok ⟨[x]⟩ }

/-- The state before any request. -/
def w0 : World := ⟨0, []⟩

/-- A device whose driver fails the request for namespace 2 and every
Get-Log-Page request with the error number 5. -/
def failDriver (_hist : List Event) (c : Call) : Reply :=
  if c.cmd.opcode = 6 then
    if c.cmd.cdw10 = 1 then ⟨none, [3]⟩
    else if c.cmd.nsid = 2 then ⟨some (.errno 5), []⟩
    else ⟨none, [16 * c.cmd.nsid]⟩
  else ⟨some (.errno 5), []⟩

/-- The sample environment with the failing driver. -/
def failEnv : Env := { demoEnv with driver := failDriver }

/-- The request `ReadSMART` is expected to issue, its buffer being the array of
the `k`-th call of `make`. -/
def smartCall (env : Env) (fd : Int) (k : Nat) : Call :=
  adminCall env fd
    { logPageCmd env env.nvmeLogSmartInformation (toUint64 (env.heapAddr k)) 512 with
      cdw10 := logPageCdw10 env.nvmeLogSmartInformation 512 }
    (List.replicate 512 0)

/-- What `ReadSMART` makes of the reply `r` of the driver. -/
def smartFinish (env : Env) (r : Reply) : Outcome (Option NvmeSMARTLog × Option GoError) :=
  match r.err with
  | some e => .ret (none, some e)
  | none =>
    match env.readSMARTLog (overlay (List.replicate 512 0) r.written) with
    | .error e => .ret (none, some e)
    | .ok sl => .ret (some sl, none)

/-- A driver whose controller reports `2 ^ 31` namespaces (the bytes
`00 00 00 80` in little-endian order) and answers every namespace request
with a namespace of size 16. -/
def wideDriver (_hist : List Event) (c : Call) : Reply :=
  if c.cmd.opcode = 6 then
    if c.cmd.cdw10 = 1 then ⟨none, [0, 0, 0, 128]⟩
    else ⟨none, [16]⟩
  else ⟨none, [1]⟩

/-- A sample environment on a 32-bit platform: the driver `wideDriver`, and a
controller decoder that reads the namespace count from the first four bytes,
least significant byte first. -/
def env32 : Env :=
  { demoEnv with
    intBits := 32
    driver := wideDriver
    readController := fun b =>
      match b with
      | b0 :: b1 :: b2 :: b3 :: _ =>
        .ok ⟨b0 + 256 * b1 + 65536 * b2 + 16777216 * b3, []⟩
      | _ => .error (.read 0) }

/-- A buffer of 4 GiB. -/
def bigBuf : Slice := ⟨0xc000010000, List.replicate (2 ^ 32) 0⟩

/-! ## Lemmas -/

theorem logPageCdw10_eq_add (logID L : Nat) (hid : logID < 256) (h4 : 4 ≤ L)
    (hmax : L ≤ 16384) :
    logPageCdw10 logID L = logID + (L / 4 - 1) * 65536 := by
  have hq : L / 4 - 1 ≤ 4095 := by omega
  have h1 : toUint32 logID = logID := by unfold toUint32; omega
  have h2 : subUint32 (toUint32 L / 4) 1 = L / 4 - 1 := by
    unfold subUint32 toUint32; omega
  have h3 : shlUint32 (L / 4 - 1) 16 = 2 ^ 16 * (L / 4 - 1) := by
    unfold shlUint32
    rw [Nat.shiftLeft_eq, Nat.mul_comm]
    apply Nat.mod_eq_of_lt
    omega
  have h5 : logID < 2 ^ 16 := by omega
  unfold logPageCdw10
  rw [h1, h2, h3, Nat.lor_comm, ← Nat.mul_add_lt_is_or h5]
  omega

theorem logPageCdw10_eq_lor (logID L : Nat) (hid : logID < 256) (h4 : 4 ≤ L)
    (hmax : L ≤ 16384) :
    logPageCdw10 logID L = logID ||| ((L / 4 - 1) <<< 16) := by
  have h1 : toUint32 logID = logID := by unfold toUint32; omega
  have h2 : subUint32 (toUint32 L / 4) 1 = L / 4 - 1 := by
    unfold subUint32 toUint32; omega
  have h3 : shlUint32 (L / 4 - 1) 16 = (L / 4 - 1) <<< 16 := by
    unfold shlUint32
    apply Nat.mod_eq_of_lt
    rw [Nat.shiftLeft_eq]
    omega
  unfold logPageCdw10
  rw [h1, h2, h3]

theorem nvmeReadIdentify_nonempty (env : Env) (fd : Int) (nsid cns : Nat) (data : Slice)
    (w : World) (h : data.elems ≠ []) :
    nvmeReadIdentify env fd nsid cns data w =
      (.ret (env.driver w.log (adminCall env fd
          (identifyCmd env nsid cns (toUint64 data.ptr) (toUint32 data.elems.length))
          data.elems)).err,
       ⟨data.ptr, overlay data.elems (env.driver w.log (adminCall env fd
          (identifyCmd env nsid cns (toUint64 data.ptr) (toUint32 data.elems.length))
          data.elems)).written⟩,
       afterCall env (adminCall env fd
          (identifyCmd env nsid cns (toUint64 data.ptr) (toUint32 data.elems.length))
          data.elems) w) := by
  obtain ⟨p, es⟩ := data
  cases es with
  | nil => exact absurd rfl h
  | cons b bs => rfl

theorem readLogPage_raw (env : Env) (fd : Int) (logID : Nat) (buf : Slice)
    (w : World) (h4 : 4 ≤ buf.elems.length) (hmax : buf.elems.length ≤ 16384)
    (hmod : buf.elems.length % 4 = 0) :
    nvmeReadLogPage env fd logID buf w =
      (.ret (env.driver w.log (adminCall env fd
          { logPageCmd env logID (toUint64 buf.ptr) (toUint32 buf.elems.length) with
            cdw10 := logPageCdw10 logID buf.elems.length }
          buf.elems)).err,
       ⟨buf.ptr, overlay buf.elems (env.driver w.log (adminCall env fd
          { logPageCmd env logID (toUint64 buf.ptr) (toUint32 buf.elems.length) with
            cdw10 := logPageCdw10 logID buf.elems.length }
          buf.elems)).written⟩,
       afterCall env (adminCall env fd
          { logPageCmd env logID (toUint64 buf.ptr) (toUint32 buf.elems.length) with
            cdw10 := logPageCdw10 logID buf.elems.length }
          buf.elems) w) := by
  obtain ⟨p, es⟩ := buf
  cases es with
  | nil => simp at h4
  | cons b bs =>
    have hc : ¬ ((b :: bs).length < 4 ∨ (b :: bs).length > 0x4000 ∨ (b :: bs).length % 4 ≠ 0) := by
      simp only [not_or, not_lt, gt_iff_lt, ne_eq, not_not]
      exact ⟨h4, hmax, hmod⟩
    simp only [nvmeReadLogPage, if_neg hc]
    rfl

theorem readLogPage_eq (env : Env) (fd : Int) (logID : Nat) (buf : Slice)
    (w : World) (hid : logID < 256) (hptr : buf.ptr < 2 ^ 64)
    (h4 : 4 ≤ buf.elems.length) (hmax : buf.elems.length ≤ 16384)
    (hmod : buf.elems.length % 4 = 0) :
    nvmeReadLogPage env fd logID buf w =
      (.ret (env.driver w.log (adminCall env fd
          (logPageCmd env logID buf.ptr buf.elems.length) buf.elems)).err,
       ⟨buf.ptr, overlay buf.elems (env.driver w.log (adminCall env fd
          (logPageCmd env logID buf.ptr buf.elems.length) buf.elems)).written⟩,
       afterCall env (adminCall env fd
          (logPageCmd env logID buf.ptr buf.elems.length) buf.elems) w) := by
  have e1 : toUint64 buf.ptr = buf.ptr := Nat.mod_eq_of_lt hptr
  have e2 : toUint32 buf.elems.length = buf.elems.length := by unfold toUint32; omega
  have e3 := logPageCdw10_eq_lor logID buf.elems.length hid h4 hmax
  have e4 : ({ logPageCmd env logID (toUint64 buf.ptr) (toUint32 buf.elems.length) with
            cdw10 := logPageCdw10 logID buf.elems.length } : nvmePassthruCmd64)
      = logPageCmd env logID buf.ptr buf.elems.length := by
    rw [e1, e2, e3]; rfl
  rw [readLogPage_raw env fd logID buf w h4 hmax hmod, e4]

theorem nvmeReadIdentify_make (env : Env) (fd : Int) (nsid cns : Nat) (w : World) :
    nvmeReadIdentify env fd nsid cns (make env 4096 w).1 (make env 4096 w).2 =
      (.ret (env.driver w.log (identifyCall env fd nsid cns w.allocs)).err,
       ⟨env.heapAddr w.allocs, overlay (List.replicate 4096 0)
          (env.driver w.log (identifyCall env fd nsid cns w.allocs)).written⟩,
       ⟨w.allocs + 1, w.log ++ [⟨identifyCall env fd nsid cns w.allocs,
          env.driver w.log (identifyCall env fd nsid cns w.allocs)⟩]⟩) := by
  have hne : (make env 4096 w).1.elems ≠ [] := by
    intro h
    have hl := congrArg List.length h
    simp only [make, List.length_replicate, List.length_nil] at hl
    omega
  have h32 : toUint32 4096 = 4096 := by decide
  rw [nvmeReadIdentify_nonempty env fd nsid cns _ _ hne]
  simp only [make, identifyCall, afterCall, List.length_replicate, h32]

theorem identifyLoop_succ (env : Env) (fd : Int) (k : Nat) (i : Int)
    (ns : List NvmeIdentNamespace) (w : World) :
    identifyLoop env fd (k + 1) i ns w =
      loopStep env fd k i ns w (identifyCall env fd (intToUint32 (i + 1)) 0 w.allocs)
        (env.driver w.log (identifyCall env fd (intToUint32 (i + 1)) 0 w.allocs)) := by
  rw [identifyLoop, nvmeReadIdentify_make]
  unfold loopStep
  cases h : (env.driver w.log (identifyCall env fd (intToUint32 (i + 1)) 0 w.allocs)).err with
  | some err => rfl
  | none =>
    cases h2 : env.readNamespace (overlay (List.replicate 4096 0)
        (env.driver w.log (identifyCall env fd (intToUint32 (i + 1)) 0 w.allocs)).written) with
    | error err => simp only [h2]
    | ok n => simp only [h2]

theorem intToUint32_natCast (n : Nat) : intToUint32 (n : Int) = toUint32 n := by
  unfold intToUint32 toUint32
  omega

/-- What the loop appends to the log, and that a failed request decides the
result. -/
theorem identifyLoop_log (env : Env) (fd : Int) :
    ∀ (k : Nat) (i : Int) (ns : List NvmeIdentNamespace) (w : World),
      ∃ evs : List Event,
        (identifyLoop env fd k i ns w).2.log = w.log ++ evs ∧
        ∀ ev ∈ evs, ∀ e, ev.reply.err = some e →
          (identifyLoop env fd k i ns w).1 = .ret (.error e) := by
  intro k
  induction k with
  | zero =>
    intro i ns w
    exact ⟨[], by simp [identifyLoop], by simp⟩
  | succ k ih =>
    intro i ns w
    rw [identifyLoop_succ]
    generalize identifyCall env fd (intToUint32 (i + 1)) 0 w.allocs = c
    generalize hr : env.driver w.log c = r
    unfold loopStep
    cases h : r.err with
    | some err =>
      refine ⟨[⟨c, r⟩], rfl, ?_⟩
      intro ev hev e he
      rw [List.mem_singleton] at hev
      subst hev
      rw [h] at he
      cases he
      rfl
    | none =>
      cases h2 : env.readNamespace (overlay (List.replicate 4096 0) r.written) with
      | error err =>
        refine ⟨[⟨c, r⟩], rfl, ?_⟩
        intro ev hev e he
        rw [List.mem_singleton] at hev
        subst hev
        rw [h] at he
        cases he
      | ok n =>
        by_cases hz : n.Nsze = 0
        · obtain ⟨evs, hlog, herr⟩ := ih (i + 1) ns ⟨w.allocs + 1, w.log ++ [⟨c, r⟩]⟩
          refine ⟨⟨c, r⟩ :: evs, ?_, ?_⟩
          · simp only [if_pos hz]
            rw [hlog]
            simp
          · intro ev hev e he
            simp only [if_pos hz]
            rcases List.mem_cons.mp hev with h0 | h1
            · subst h0
              rw [h] at he
              cases he
            · exact herr ev h1 e he
        · obtain ⟨evs, hlog, herr⟩ := ih (i + 1) (ns ++ [n]) ⟨w.allocs + 1, w.log ++ [⟨c, r⟩]⟩
          refine ⟨⟨c, r⟩ :: evs, ?_, ?_⟩
          · simp only [if_neg hz]
            rw [hlog]
            simp
          · intro ev hev e he
            simp only [if_neg hz]
            rcases List.mem_cons.mp hev with h0 | h1
            · subst h0
              rw [h] at he
              cases he
            · exact herr ev h1 e he

/-- A run of the loop that ends without error: the requests it issued, that
all of them and all decodes succeeded, and the slice it built. -/
theorem identifyLoop_ok (env : Env) (fd : Int) :
    ∀ (k a : Nat) (ns : List NvmeIdentNamespace) (w : World)
      (out : List NvmeIdentNamespace) (w2 : World),
      identifyLoop env fd k (a : Int) ns w = (.ret (.ok out), w2) →
      ∃ (evs : List Event) (recs : List NvmeIdentNamespace),
        w2.log = w.log ++ evs ∧
        evs.map Event.call =
          (List.range k).map
            (fun j => identifyCall env fd (toUint32 (a + j + 1)) 0 (w.allocs + j)) ∧
        (∀ ev ∈ evs, ev.reply.err = none) ∧
        evs.map (fun ev => env.readNamespace (overlay ev.call.mem ev.reply.written)) =
          recs.map Except.ok ∧
        out = ns ++ recs.filter (fun n => decide (n.Nsze ≠ 0)) := by
  intro k
  induction k with
  | zero =>
    intro a ns w out w2 h
    simp only [identifyLoop, Prod.mk.injEq, Outcome.ret.injEq, Except.ok.injEq] at h
    obtain ⟨h1, h2⟩ := h
    subst h1 h2
    exact ⟨[], [], by simp, by simp, by simp, by simp, by simp⟩
  | succ k ih =>
    intro a ns w out w2 h
    rw [identifyLoop_succ] at h
    have hcast : ((a : Int) + 1) = ((a + 1 : Nat) : Int) := by push_cast; rfl
    rw [hcast, intToUint32_natCast] at h
    generalize hr : env.driver w.log (identifyCall env fd (toUint32 (a + 1)) 0 w.allocs) = r at h
    unfold loopStep at h
    cases he : r.err with
    | some err =>
      rw [he] at h
      simp at h
    | none =>
      rw [he] at h
      cases h2 : env.readNamespace (overlay (List.replicate 4096 0) r.written) with
      | error err =>
        simp only [h2] at h
        simp at h
      | ok n =>
        simp only [h2] at h
        have step : ∀ ns1, identifyLoop env fd k ((a + 1 : Nat) : Int) ns1
              ⟨w.allocs + 1, w.log ++
                [⟨identifyCall env fd (toUint32 (a + 1)) 0 w.allocs, r⟩]⟩ = (.ret (.ok out), w2) →
            ∃ (evs : List Event) (recs : List NvmeIdentNamespace),
              w2.log = w.log ++ evs ∧
              evs.map Event.call =
                (List.range (k + 1)).map
                  (fun j => identifyCall env fd (toUint32 (a + j + 1)) 0 (w.allocs + j)) ∧
              (∀ ev ∈ evs, ev.reply.err = none) ∧
              evs.map (fun ev => env.readNamespace (overlay ev.call.mem ev.reply.written)) =
                (n :: recs).map Except.ok ∧
              out = ns1 ++ recs.filter (fun n => decide (n.Nsze ≠ 0)) := by
          intro ns1 hrun
          obtain ⟨evs, recs, hlog, hcalls, herr, hdec, hout⟩ := ih (a + 1) ns1 _ out w2 hrun
          refine ⟨⟨identifyCall env fd (toUint32 (a + 1)) 0 w.allocs, r⟩ :: evs, recs,
            ?_, ?_, ?_, ?_, hout⟩
          · rw [hlog]
            simp
          · rw [List.range_succ_eq_map, List.map_cons, List.map_cons, List.map_map, hcalls]
            refine congrArg₂ List.cons rfl ?_
            apply List.map_congr_left
            intro j _
            simp only [Function.comp_apply]
            have e1 : a + 1 + j + 1 = a + Nat.succ j + 1 := by omega
            have e2 : w.allocs + 1 + j = w.allocs + Nat.succ j := by omega
            rw [e1, e2]
          · intro ev hev
            rcases List.mem_cons.mp hev with h0 | h1
            · subst h0
              exact he
            · exact herr ev h1
          · rw [List.map_cons, List.map_cons, hdec]
            refine congrArg₂ List.cons ?_ rfl
            exact h2
        by_cases hz : n.Nsze = 0
        · rw [if_pos hz] at h
          obtain ⟨evs, recs, hlog, hcalls, herr, hdec, hout⟩ := step ns h
          refine ⟨evs, n :: recs, hlog, hcalls, herr, hdec, ?_⟩
          rw [hout, List.filter_cons_of_neg]
          simp [hz]
        · rw [if_neg hz] at h
          obtain ⟨evs, recs, hlog, hcalls, herr, hdec, hout⟩ := step (ns ++ [n]) h
          refine ⟨evs, n :: recs, hlog, hcalls, herr, hdec, ?_⟩
          rw [hout, List.filter_cons_of_pos]
          · simp
          · simp [hz]

theorem newEvents_append (w w2 : World) (evs : List Event) (h : w2.log = w.log ++ evs) :
    newEvents w w2 = evs := by
  unfold newEvents
  rw [h, List.drop_left]

theorem Identify_ctrl_failed (env : Env) (d : NVMeDevice) (w : World) (e : GoError)
    (h : (env.driver w.log (identifyCall env d.fd 0 1 w.allocs)).err = some e) :
    Identify env d w = (.ret (none, [], some e), afterController env d w) := by
  unfold Identify
  rw [nvmeReadIdentify_make, h]
  rfl

theorem Identify_decode_failed (env : Env) (d : NVMeDevice) (w : World) (e : GoError)
    (h : (env.driver w.log (identifyCall env d.fd 0 1 w.allocs)).err = none)
    (h2 : env.readController (overlay (List.replicate 4096 0)
      (env.driver w.log (identifyCall env d.fd 0 1 w.allocs)).written) = .error e) :
    Identify env d w = (.ret (none, [], some e), afterController env d w) := by
  unfold Identify
  rw [nvmeReadIdentify_make, h]
  simp only [h2]
  rfl

theorem Identify_decoded (env : Env) (d : NVMeDevice) (w : World) (c : NvmeIdentController)
    (h : (env.driver w.log (identifyCall env d.fd 0 1 w.allocs)).err = none)
    (h2 : env.readController (overlay (List.replicate 4096 0)
      (env.driver w.log (identifyCall env d.fd 0 1 w.allocs)).written) = .ok c) :
    Identify env d w =
      identifyFinish c (identifyLoop env d.fd (toInt env.intBits c.Nn).toNat 0 []
        (afterController env d w)) := by
  unfold Identify
  rw [nvmeReadIdentify_make, h]
  simp only [h2]
  rfl

theorem identifyFinish_snd (c : NvmeIdentController)
    (r : Outcome (Except GoError (List NvmeIdentNamespace)) × World) :
    (identifyFinish c r).2 = r.2 := by
  obtain ⟨o, w⟩ := r
  cases o with
  | panic m => rfl
  | ret x =>
    cases x with
    | error e => rfl
    | ok out => rfl

theorem identifyFinish_error (c : NvmeIdentController)
    (r : Outcome (Except GoError (List NvmeIdentNamespace)) × World) (e : GoError)
    (h : r.1 = .ret (.error e)) :
    (identifyFinish c r).1 = .ret (none, [], some e) := by
  obtain ⟨o, w⟩ := r
  cases h
  rfl

theorem Identify_log (env : Env) (d : NVMeDevice) (w : World) :
    ∃ evs : List Event,
      (Identify env d w).2.log = w.log ++ ⟨identifyCall env d.fd 0 1 w.allocs,
        env.driver w.log (identifyCall env d.fd 0 1 w.allocs)⟩ :: evs ∧
      ∀ ev ∈ evs, ∀ e, ev.reply.err = some e →
        (Identify env d w).1 = .ret (none, [], some e) := by
  cases h : (env.driver w.log (identifyCall env d.fd 0 1 w.allocs)).err with
  | some e =>
    rw [Identify_ctrl_failed env d w e h]
    exact ⟨[], rfl, fun ev hev => absurd hev (List.not_mem_nil ev)⟩
  | none =>
    cases h2 : env.readController (overlay (List.replicate 4096 0)
        (env.driver w.log (identifyCall env d.fd 0 1 w.allocs)).written) with
    | error e =>
      rw [Identify_decode_failed env d w e h h2]
      exact ⟨[], rfl, fun ev hev => absurd hev (List.not_mem_nil ev)⟩
    | ok c =>
      rw [Identify_decoded env d w c h h2]
      obtain ⟨evs, hlog, herr⟩ :=
        identifyLoop_log env d.fd (toInt env.intBits c.Nn).toNat 0 [] (afterController env d w)
      refine ⟨evs, ?_, ?_⟩
      · rw [identifyFinish_snd, hlog]
        simp only [afterController, List.append_assoc, List.singleton_append]
      · intro ev hev e he
        exact identifyFinish_error c _ e (herr ev hev e he)

theorem Identify_ok (env : Env) (d : NVMeDevice) (w : World) (c : NvmeIdentController)
    (ns : List NvmeIdentNamespace)
    (h : (Identify env d w).1 = .ret (some c, ns, none)) :
    (env.driver w.log (identifyCall env d.fd 0 1 w.allocs)).err = none ∧
    env.readController (overlay (List.replicate 4096 0)
      (env.driver w.log (identifyCall env d.fd 0 1 w.allocs)).written) = .ok c ∧
    ∃ (evs : List Event) (recs : List NvmeIdentNamespace),
      (Identify env d w).2.log = w.log ++ ⟨identifyCall env d.fd 0 1 w.allocs,
        env.driver w.log (identifyCall env d.fd 0 1 w.allocs)⟩ :: evs ∧
      evs.map Event.call =
        (List.range (toInt env.intBits c.Nn).toNat).map
          (fun j => identifyCall env d.fd (toUint32 (j + 1)) 0 (w.allocs + 1 + j)) ∧
      (∀ ev ∈ evs, ev.reply.err = none) ∧
      evs.map (fun ev => env.readNamespace (overlay ev.call.mem ev.reply.written)) =
        recs.map Except.ok ∧
      ns = recs.filter (fun n => decide (n.Nsze ≠ 0)) := by
  cases h1 : (env.driver w.log (identifyCall env d.fd 0 1 w.allocs)).err with
  | some e =>
    rw [Identify_ctrl_failed env d w e h1] at h
    simp at h
  | none =>
    cases h2 : env.readController (overlay (List.replicate 4096 0)
        (env.driver w.log (identifyCall env d.fd 0 1 w.allocs)).written) with
    | error e =>
      rw [Identify_decode_failed env d w e h1 h2] at h
      simp at h
    | ok c1 =>
      rw [Identify_decoded env d w c1 h1 h2] at h ⊢
      generalize hl : identifyLoop env d.fd (toInt env.intBits c1.Nn).toNat 0 []
        (afterController env d w) = res at h ⊢
      obtain ⟨o, w3⟩ := res
      cases o with
      | panic m => simp [identifyFinish] at h
      | ret x =>
        cases x with
        | error e => simp [identifyFinish] at h
        | ok out =>
          simp only [identifyFinish, Outcome.ret.injEq, Prod.mk.injEq, Option.some.injEq,
            and_true] at h
          obtain ⟨hc, hns⟩ := h
          subst hc hns
          have hl2 : identifyLoop env d.fd (toInt env.intBits c1.Nn).toNat ((0 : Nat) : Int) []
              (afterController env d w) = (.ret (.ok out), w3) := hl
          obtain ⟨evs, recs, hlog, hcalls, herr, hdec, hout⟩ :=
            identifyLoop_ok env d.fd _ 0 [] _ out w3 hl2
          refine ⟨rfl, rfl, evs, recs, ?_, ?_, herr, hdec, ?_⟩
          · simp only [identifyFinish]
            rw [hlog]
            simp only [afterController, List.append_assoc, List.singleton_append]
          · rw [hcalls]
            apply List.map_congr_left
            intro j _
            simp only [afterController, Nat.zero_add]
          · simpa using hout

theorem ReadSMART_eq (env : Env) (d : NVMeDevice) (w : World) :
    ReadSMART env d w =
      (smartFinish env (env.driver w.log (smartCall env d.fd w.allocs)),
       ⟨w.allocs + 1, w.log ++ [⟨smartCall env d.fd w.allocs,
          env.driver w.log (smartCall env d.fd w.allocs)⟩]⟩) := by
  have hl : (make env 512 w).1.elems.length = 512 := by
    simp only [make, List.length_replicate]
  have h32 : toUint32 512 = 512 := by decide
  unfold ReadSMART
  rw [readLogPage_raw env d.fd env.nvmeLogSmartInformation (make env 512 w).1
    (make env 512 w).2 (by omega) (by omega) (by omega), hl, h32]
  unfold smartFinish
  cases h : (env.driver w.log (smartCall env d.fd w.allocs)).err with
  | some e =>
    simp only [make, afterCall, smartCall] at h ⊢
    rw [h]
  | none =>
    simp only [make, afterCall, smartCall] at h ⊢
    rw [h]
    cases h2 : env.readSMARTLog (overlay (List.replicate 512 0)
        (env.driver w.log (adminCall env d.fd
          { logPageCmd env env.nvmeLogSmartInformation (toUint64 (env.heapAddr w.allocs)) 512 with
            cdw10 := logPageCdw10 env.nvmeLogSmartInformation 512 }
          (List.replicate 512 0))).written) with
    | error e => simp only [h2]
    | ok sl => simp only [h2]

theorem toInt_toNat_of_lt (bits x : Nat) (h : x < 2 ^ (bits - 1)) :
    (toInt bits x).toNat = x := by
  have hp : 2 ^ (bits - 1) ≤ 2 ^ bits := Nat.pow_le_pow_right (by decide) (by omega)
  have hx : x % 2 ^ bits = x := Nat.mod_eq_of_lt (by omega)
  unfold toInt
  rw [hx, if_pos h]
  exact Int.toNat_ofNat x

/-! ## The claims -/

/-- C1: for every descriptor, log id and buffer whose length is below 4, above
16384 or not a multiple of 4 (the empty buffer included), `nvmeReadLogPage`
returns the error "invalid buffer size" without panicking and leaves the state
as it was: no control request is issued. -/
theorem nvmeReadLogPage_invalid_size (env : Env) (fd : Int) (logID : Nat) (buf : Slice)
    (w : World)
    (h : buf.elems.length < 4 ∨ buf.elems.length > 16384 ∨ buf.elems.length % 4 ≠ 0) :
    nvmeReadLogPage env fd logID buf w =
      (.ret (some (.errorf "invalid buffer size")), buf, w) := by
  simp only [nvmeReadLogPage]
  rw [if_pos h]

theorem nvmeReadLogPage_invalid_size_witness :
    (([] : List Nat).length < 4 ∨ ([] : List Nat).length > 16384 ∨
      ([] : List Nat).length % 4 ≠ 0) ∧
    nvmeReadLogPage demoEnv 3 2 ⟨0, []⟩ w0 =
      (.ret (some (.errorf "invalid buffer size")), ⟨0, []⟩, w0) :=
  ⟨by decide, nvmeReadLogPage_invalid_size demoEnv 3 2 ⟨0, []⟩ w0 (by decide)⟩

/-- C2 (amended): when `Identify` returns without error with controller record
`c` and namespace slice `ns`, for `c.Nn` below `2 ^ 32` (a `uint32`) and below
`2 ^ (intBits - 1)` (so that `int(c.Nn)` is not negative; every `uint32` is,
when `int` is 64 bits wide): the requests after the first carry the namespace ids `1 .. c.Nn` in
ascending order, their responses decode to records `recs` (one per id), and `ns`
is exactly the sub-sequence of `recs` with non-zero `Nsze`, in the same order. -/
theorem Identify_namespaces (env : Env) (d : NVMeDevice) (w : World)
    (c : NvmeIdentController) (ns : List NvmeIdentNamespace)
    (h : (Identify env d w).1 = .ret (some c, ns, none))
    (hNn : c.Nn < 2 ^ 32) (hint : c.Nn < 2 ^ (env.intBits - 1)) :
    ∃ recs : List NvmeIdentNamespace,
      recs.length = c.Nn ∧
      (newEvents w (Identify env d w).2).tail.map (fun ev => ev.call.cmd.nsid) =
        (List.range c.Nn).map (fun j => j + 1) ∧
      (newEvents w (Identify env d w).2).tail.map
          (fun ev => env.readNamespace (overlay ev.call.mem ev.reply.written)) =
        recs.map Except.ok ∧
      ns = recs.filter (fun n => decide (n.Nsze ≠ 0)) := by
  obtain ⟨_, _, evs, recs, hlog, hcalls, _, hdec, hns⟩ := Identify_ok env d w c ns h
  rw [toInt_toNat_of_lt env.intBits c.Nn hint] at hcalls
  have hnsid : evs.map (fun ev => ev.call.cmd.nsid) =
      (List.range c.Nn).map (fun j => j + 1) := by
    have e : evs.map (fun ev => ev.call.cmd.nsid) =
        (evs.map Event.call).map (fun cl => cl.cmd.nsid) := by
      rw [List.map_map]
      rfl
    rw [e, hcalls, List.map_map]
    apply List.map_congr_left
    intro j hj
    have hj2 : j < c.Nn := List.mem_range.mp hj
    show toUint32 (j + 1) = j + 1
    unfold toUint32
    omega
  have hlen : recs.length = c.Nn := by
    have h1 := congrArg List.length hdec
    have h2 := congrArg List.length hnsid
    simp only [List.length_map, List.length_range] at h1 h2
    omega
  rw [newEvents_append w _ _ hlog]
  exact ⟨recs, hlen, hnsid, hdec, hns⟩

theorem Identify_namespaces_witness :
    ((Identify demoEnv ⟨3⟩ w0).1 = .ret (some ⟨3, []⟩, [⟨16, []⟩, ⟨48, []⟩], none) ∧
      (3 : Nat) < 2 ^ 32 ∧ (3 : Nat) < 2 ^ (demoEnv.intBits - 1)) ∧
    ∃ recs : List NvmeIdentNamespace,
      recs.length = 3 ∧
      (newEvents w0 (Identify demoEnv ⟨3⟩ w0).2).tail.map (fun ev => ev.call.cmd.nsid) =
        (List.range 3).map (fun j => j + 1) ∧
      (newEvents w0 (Identify demoEnv ⟨3⟩ w0).2).tail.map
          (fun ev => demoEnv.readNamespace (overlay ev.call.mem ev.reply.written)) =
        recs.map Except.ok ∧
      [⟨16, []⟩, ⟨48, []⟩] = recs.filter (fun n => decide (n.Nsze ≠ 0)) :=
  ⟨by decide,
   Identify_namespaces demoEnv ⟨3⟩ w0 ⟨3, []⟩ [⟨16, []⟩, ⟨48, []⟩]
      (by decide) (by decide) (by decide)⟩

/-- C2 as stated fails: on a 32-bit platform, with a controller that reports
`2 ^ 31` namespaces, `Identify` returns without error and with an empty
namespace list, although the device answers the request for namespace 1 with a
record of non-zero size; no record is decoded at all, so the list is not the
one of the records for the ids `1 .. Nn` with non-zero size. -/
theorem Identify_namespaces_int32 :
    env32.intBits = 32 ∧
    (Identify env32 ⟨3⟩ w0).1 = .ret (some ⟨2147483648, []⟩, [], none) ∧
    (env32.driver (Identify env32 ⟨3⟩ w0).2.log (identifyCall env32 3 1 0 1)).err = none ∧
    env32.readNamespace (overlay (List.replicate 4096 0)
      (env32.driver (Identify env32 ⟨3⟩ w0).2.log (identifyCall env32 3 1 0 1)).written) =
      .ok ⟨16, []⟩ ∧
    ¬ ∃ recs : List NvmeIdentNamespace,
      recs.length = 2147483648 ∧
      (newEvents w0 (Identify env32 ⟨3⟩ w0).2).tail.map
          (fun ev => env32.readNamespace (overlay ev.call.mem ev.reply.written)) =
        recs.map Except.ok := by
  refine ⟨by decide, by decide, by decide, by rfl, ?_⟩
  rintro ⟨recs, hlen, hmap⟩
  have htail : (newEvents w0 (Identify env32 ⟨3⟩ w0).2).tail = [] := by decide
  rw [htail] at hmap
  have h0 := congrArg List.length hmap
  simp only [List.map_nil, List.length_nil, List.length_map] at h0
  omega


/-- C3: when a control request issued by `Identify` fails with error `e`,
`Identify` returns a nil controller, a nil namespace slice and `e`; when the
control request of `ReadSMART` fails with `e`, `ReadSMART` returns a nil log
and `e`. -/
theorem request_error_propagates (env : Env) (d : NVMeDevice) (w : World) (e : GoError) :
    (some e ∈ (newEvents w (Identify env d w).2).map (fun ev => ev.reply.err) →
      (Identify env d w).1 = .ret (none, [], some e)) ∧
    (some e ∈ (newEvents w (ReadSMART env d w).2).map (fun ev => ev.reply.err) →
      (ReadSMART env d w).1 = .ret (none, some e)) := by
  constructor
  · intro h
    obtain ⟨evs, hlog, herr⟩ := Identify_log env d w
    rw [newEvents_append w _ _ hlog] at h
    obtain ⟨ev, hev, he⟩ := List.mem_map.mp h
    rcases List.mem_cons.mp hev with h0 | h1
    · subst h0
      exact congrArg Prod.fst (Identify_ctrl_failed env d w e he)
    · exact herr ev h1 e he
  · intro h
    rw [ReadSMART_eq] at h ⊢
    rw [newEvents_append w _ [⟨smartCall env d.fd w.allocs,
      env.driver w.log (smartCall env d.fd w.allocs)⟩] rfl] at h
    simp only [List.map_cons, List.map_nil, List.mem_singleton] at h
    simp only [smartFinish, ← h]

theorem request_error_propagates_witness :
    (some (GoError.errno 5) ∈
        (newEvents w0 (Identify failEnv ⟨3⟩ w0).2).map (fun ev => ev.reply.err) ∧
      (Identify failEnv ⟨3⟩ w0).1 = .ret (none, [], some (.errno 5))) ∧
    (some (GoError.errno 5) ∈
        (newEvents w0 (ReadSMART failEnv ⟨3⟩ w0).2).map (fun ev => ev.reply.err) ∧
      (ReadSMART failEnv ⟨3⟩ w0).1 = .ret (none, some (.errno 5))) :=
  ⟨⟨by decide, (request_error_propagates failEnv ⟨3⟩ w0 (.errno 5)).1 (by decide)⟩,
   ⟨by
      rw [ReadSMART_eq]
      decide,
    (request_error_propagates failEnv ⟨3⟩ w0 (.errno 5)).2 (by
      rw [ReadSMART_eq]
      decide)⟩⟩

/-- C4: for a log id below 256 and a length `L` with `4 ≤ L ≤ 16384` and
`L % 4 = 0`, the `cdw10` of `nvmeReadLogPage` has low byte `logID`, bits 8..15
zero and high 16 bits `L / 4 - 1`, which is at most 4095; the `uint32`
subtraction does not underflow, the shift loses no bit, and `L` is recovered
as `(cdw10 / 65536 + 1) * 4`. -/
theorem logPageCdw10_fields (logID L : Nat) (hid : logID < 256) (h4 : 4 ≤ L)
    (hmax : L ≤ 16384) (hmod : L % 4 = 0) :
    logPageCdw10 logID L % 256 = logID ∧
    logPageCdw10 logID L / 256 % 256 = 0 ∧
    logPageCdw10 logID L / 65536 = L / 4 - 1 ∧
    L / 4 - 1 ≤ 4095 ∧
    1 ≤ toUint32 L / 4 ∧
    subUint32 (toUint32 L / 4) 1 = L / 4 - 1 ∧
    shlUint32 (L / 4 - 1) 16 = (L / 4 - 1) * 2 ^ 16 ∧
    logPageCdw10 logID L < 2 ^ 32 ∧
    (logPageCdw10 logID L / 65536 + 1) * 4 = L := by
  have e := logPageCdw10_eq_add logID L hid h4 hmax
  have h2 : subUint32 (toUint32 L / 4) 1 = L / 4 - 1 := by
    unfold subUint32 toUint32; omega
  have h3 : shlUint32 (L / 4 - 1) 16 = (L / 4 - 1) * 2 ^ 16 := by
    unfold shlUint32
    rw [Nat.shiftLeft_eq]
    apply Nat.mod_eq_of_lt
    omega
  have h6 : 1 ≤ toUint32 L / 4 := by unfold toUint32; omega
  refine ⟨?_, ?_, ?_, ?_, h6, h2, h3, ?_, ?_⟩ <;> omega

theorem logPageCdw10_fields_witness :
    ((2 : Nat) < 256 ∧ 4 ≤ 512 ∧ 512 ≤ 16384 ∧ 512 % 4 = 0) ∧
    logPageCdw10 2 512 % 256 = 2 ∧ logPageCdw10 2 512 / 65536 = 512 / 4 - 1 :=
  ⟨by decide,
   (logPageCdw10_fields 2 512 (by decide) (by decide) (by decide) (by decide)).1,
   (logPageCdw10_fields 2 512 (by decide) (by decide) (by decide) (by decide)).2.2.1⟩

/-- C5 (amended): the first control request `Identify` issues is an Identify
command with namespace id 0 and selector `cns = 1`, on a buffer of 4096 zero
bytes (the array of the next call of `make`), all other command fields zero. -/
theorem Identify_first_request (env : Env) (d : NVMeDevice) (w : World) :
    (newEvents w (Identify env d w).2).head? =
      some ⟨identifyCall env d.fd 0 1 w.allocs,
        env.driver w.log (identifyCall env d.fd 0 1 w.allocs)⟩ ∧
    identifyCall env d.fd 0 1 w.allocs =
      ⟨toUintptr env.intBits d.fd, nvmeIoctlAdmin64Cmd env,
       { opcode := env.nvmeAdminIdentify, flags := 0, rsvd1 := 0, nsid := 0,
         cdw2 := 0, cdw3 := 0, metadata := 0, addr := toUint64 (env.heapAddr w.allocs),
         metadataLen := 0, dataLen := 4096, cdw10 := 1,
         cdw11 := 0, cdw12 := 0, cdw13 := 0, cdw14 := 0, cdw15 := 0,
         timeoutMs := 0, rsvd2 := 0, result := 0 },
       List.replicate 4096 0⟩ := by
  obtain ⟨evs, hlog, _⟩ := Identify_log env d w
  rw [newEvents_append w _ _ hlog]
  exact ⟨rfl, rfl⟩

/-- C5 as stated fails: on the sample device the first request of `Identify`
carries namespace id 0, not `0xffffffff`. -/
theorem Identify_first_nsid_not_sentinel :
    (newEvents w0 (Identify demoEnv ⟨3⟩ w0).2).head?.map
        (fun ev => (ev.call.cmd.nsid, ev.call.cmd.cdw10)) = some (0, 1) ∧
    ¬ ((newEvents w0 (Identify demoEnv ⟨3⟩ w0).2).head?.map
        (fun ev => ev.call.cmd.nsid) = some 0xffffffff) := by
  decide

/-- C6 (amended): when `Identify` returns without error with controller record
`c`, for `c.Nn` below `2 ^ 32` (a `uint32`) and below `2 ^ (intBits - 1)` (so
that `int(c.Nn)` is not negative; every `uint32` is, when `int` is 64 bits
wide), it issued exactly
`1 + c.Nn` control requests: the controller request, then for `j` from 0 to
`c.Nn - 1` an Identify command with namespace id `j + 1`, selector `cns = 0`
and the array of a new call of `make` (4096 zero bytes) as buffer; and
`uint32(i + 1)` is `i + 1`, never 0, for every `i` below `c.Nn`. -/
theorem Identify_requests (env : Env) (d : NVMeDevice) (w : World)
    (c : NvmeIdentController) (ns : List NvmeIdentNamespace)
    (h : (Identify env d w).1 = .ret (some c, ns, none))
    (hNn : c.Nn < 2 ^ 32) (hint : c.Nn < 2 ^ (env.intBits - 1)) :
    (newEvents w (Identify env d w).2).map Event.call =
      identifyCall env d.fd 0 1 w.allocs ::
        (List.range c.Nn).map (fun j => identifyCall env d.fd (j + 1) 0 (w.allocs + 1 + j)) ∧
    (newEvents w (Identify env d w).2).length = 1 + c.Nn ∧
    (∀ ev ∈ newEvents w (Identify env d w).2, ev.reply.err = none) ∧
    (∀ i : Nat, i < c.Nn →
      intToUint32 ((i : Int) + 1) = i + 1 ∧ intToUint32 ((i : Int) + 1) ≠ 0) ∧
    (∀ nsid k, identifyCall env d.fd nsid 0 k =
      ⟨toUintptr env.intBits d.fd, nvmeIoctlAdmin64Cmd env,
       { opcode := env.nvmeAdminIdentify, flags := 0, rsvd1 := 0, nsid := nsid,
         cdw2 := 0, cdw3 := 0, metadata := 0, addr := toUint64 (env.heapAddr k),
         metadataLen := 0, dataLen := 4096, cdw10 := 0,
         cdw11 := 0, cdw12 := 0, cdw13 := 0, cdw14 := 0, cdw15 := 0,
         timeoutMs := 0, rsvd2 := 0, result := 0 },
       List.replicate 4096 0⟩) := by
  obtain ⟨h0, _, evs, recs, hlog, hcalls, herr, _, _⟩ := Identify_ok env d w c ns h
  rw [toInt_toNat_of_lt env.intBits c.Nn hint] at hcalls
  have hcalls2 : evs.map Event.call =
      (List.range c.Nn).map (fun j => identifyCall env d.fd (j + 1) 0 (w.allocs + 1 + j)) := by
    rw [hcalls]
    apply List.map_congr_left
    intro j hj
    have hj2 : j < c.Nn := List.mem_range.mp hj
    have e : toUint32 (j + 1) = j + 1 := by unfold toUint32; omega
    rw [e]
  have hlen : evs.length = c.Nn := by
    have := congrArg List.length hcalls2
    simpa using this
  rw [newEvents_append w _ _ hlog]
  refine ⟨?_, ?_, ?_, ?_, fun _ _ => rfl⟩
  · rw [List.map_cons, hcalls2]
  · rw [List.length_cons, hlen]
    omega
  · intro ev hev
    rcases List.mem_cons.mp hev with h1 | h1
    · subst h1
      exact h0
    · exact herr ev h1
  · intro i hi
    have hcast : ((i : Int) + 1) = ((i + 1 : Nat) : Int) := by push_cast; rfl
    rw [hcast, intToUint32_natCast]
    unfold toUint32
    omega

theorem Identify_requests_witness :
    ((Identify demoEnv ⟨3⟩ w0).1 = .ret (some ⟨3, []⟩, [⟨16, []⟩, ⟨48, []⟩], none) ∧
      (3 : Nat) < 2 ^ 32 ∧ (3 : Nat) < 2 ^ (demoEnv.intBits - 1)) ∧
    (newEvents w0 (Identify demoEnv ⟨3⟩ w0).2).length = 1 + 3 :=
  ⟨by decide,
   (Identify_requests demoEnv ⟨3⟩ w0 ⟨3, []⟩ [⟨16, []⟩, ⟨48, []⟩]
      (by decide) (by decide) (by decide)).2.1⟩

/-- C6 as stated fails: on a 32-bit platform, with a controller that reports
`2 ^ 31` namespaces and with every request and decode succeeding, `int(Nn)` is
negative, the loop body never runs and `Identify` issues one control request in
all, not `1 + 2 ^ 31`. -/
theorem Identify_requests_int32 :
    env32.intBits = 32 ∧
    (Identify env32 ⟨3⟩ w0).1 = .ret (some ⟨2147483648, []⟩, [], none) ∧
    toInt env32.intBits 2147483648 = -2147483648 ∧
    (∀ ev ∈ newEvents w0 (Identify env32 ⟨3⟩ w0).2, ev.reply.err = none) ∧
    (newEvents w0 (Identify env32 ⟨3⟩ w0).2).length = 1 ∧
    (newEvents w0 (Identify env32 ⟨3⟩ w0).2).length ≠ 1 + 2147483648 := by
  decide

/-- C7: for a log id below 256 and a buffer of valid length (at least 4, at
most 16384, a multiple of 4), `nvmeReadLogPage` issues exactly one control
request, with the request code `nvmeIoctlAdmin64Cmd` on `uintptr(fd)`; its
command is the zero command with `opcode = nvmeAdminGetLogPage`,
`nsid = 0xffffffff`, `addr` the address of the buffer, `dataLen` the length of the buffer
and `cdw10 = logID | ((len/4 - 1) << 16)`; the function returns the error of
that request unchanged. -/
theorem nvmeReadLogPage_valid (env : Env) (fd : Int) (logID : Nat) (buf : Slice) (w : World)
    (hid : logID < 256) (hptr : buf.ptr < 2 ^ 64)
    (h4 : 4 ≤ buf.elems.length) (hmax : buf.elems.length ≤ 16384)
    (hmod : buf.elems.length % 4 = 0) :
    (nvmeReadLogPage env fd logID buf w).1 =
      .ret (env.driver w.log (adminCall env fd
        (logPageCmd env logID buf.ptr buf.elems.length) buf.elems)).err ∧
    (nvmeReadLogPage env fd logID buf w).2.2.log =
      w.log ++ [⟨adminCall env fd (logPageCmd env logID buf.ptr buf.elems.length) buf.elems,
        env.driver w.log (adminCall env fd
          (logPageCmd env logID buf.ptr buf.elems.length) buf.elems)⟩] ∧
    adminCall env fd (logPageCmd env logID buf.ptr buf.elems.length) buf.elems =
      ⟨toUintptr env.intBits fd, nvmeIoctlAdmin64Cmd env,
       { opcode := env.nvmeAdminGetLogPage, flags := 0, rsvd1 := 0, nsid := 0xffffffff,
         cdw2 := 0, cdw3 := 0, metadata := 0, addr := buf.ptr, metadataLen := 0,
         dataLen := buf.elems.length,
         cdw10 := logID ||| ((buf.elems.length / 4 - 1) <<< 16),
         cdw11 := 0, cdw12 := 0, cdw13 := 0, cdw14 := 0, cdw15 := 0,
         timeoutMs := 0, rsvd2 := 0, result := 0 },
       buf.elems⟩ := by
  rw [readLogPage_eq env fd logID buf w hid hptr h4 hmax hmod]
  exact ⟨rfl, rfl, rfl⟩

theorem nvmeReadLogPage_valid_witness :
    ((2 : Nat) < 256 ∧ (0xc000010000 : Nat) < 2 ^ 64 ∧ 4 ≤ [0, 0, 0, 0].length ∧
      [0, 0, 0, 0].length ≤ 16384 ∧ [0, 0, 0, 0].length % 4 = 0) ∧
    (nvmeReadLogPage demoEnv 3 2 ⟨0xc000010000, [0, 0, 0, 0]⟩ w0).1 = .ret none ∧
    (nvmeReadLogPage demoEnv 3 2 ⟨0xc000010000, [0, 0, 0, 0]⟩ w0).2.2.log.length = 1 :=
  ⟨by decide,
   (nvmeReadLogPage_valid demoEnv 3 2 ⟨0xc000010000, [0, 0, 0, 0]⟩ w0
      (by decide) (by decide) (by decide) (by decide) (by decide)).1,
   by decide⟩

/-- C8 (amended): for every `nsid`, every `cns` and every non-empty buffer
(at an address below `2 ^ 64`), `nvmeReadIdentify` issues exactly one control
request, with the request code `nvmeIoctlAdmin64Cmd` on `uintptr(fd)`; its
command is the zero command with `opcode = nvmeAdminIdentify`, `nsid` as given,
`addr` the address of the buffer, `dataLen = len(data) mod 2 ^ 32` and
`cdw10 = cns`; the function returns the error of that request unchanged; and
`dataLen = len(data)` whenever `len(data) < 2 ^ 32`. -/
theorem nvmeReadIdentify_builds (env : Env) (fd : Int) (nsid cns : Nat) (data : Slice)
    (w : World) (hne : data.elems ≠ []) (hptr : data.ptr < 2 ^ 64) :
    (nvmeReadIdentify env fd nsid cns data w).1 =
      .ret (env.driver w.log (adminCall env fd
        (identifyCmd env nsid cns data.ptr (data.elems.length % 2 ^ 32)) data.elems)).err ∧
    (nvmeReadIdentify env fd nsid cns data w).2.2.log =
      w.log ++ [⟨adminCall env fd
          (identifyCmd env nsid cns data.ptr (data.elems.length % 2 ^ 32)) data.elems,
        env.driver w.log (adminCall env fd
          (identifyCmd env nsid cns data.ptr (data.elems.length % 2 ^ 32)) data.elems)⟩] ∧
    adminCall env fd (identifyCmd env nsid cns data.ptr (data.elems.length % 2 ^ 32))
        data.elems =
      ⟨toUintptr env.intBits fd, nvmeIoctlAdmin64Cmd env,
       { opcode := env.nvmeAdminIdentify, flags := 0, rsvd1 := 0, nsid := nsid,
         cdw2 := 0, cdw3 := 0, metadata := 0, addr := data.ptr, metadataLen := 0,
         dataLen := data.elems.length % 2 ^ 32,
         cdw10 := cns,
         cdw11 := 0, cdw12 := 0, cdw13 := 0, cdw14 := 0, cdw15 := 0,
         timeoutMs := 0, rsvd2 := 0, result := 0 },
       data.elems⟩ ∧
    (data.elems.length < 2 ^ 32 → data.elems.length % 2 ^ 32 = data.elems.length) := by
  have e1 : toUint64 data.ptr = data.ptr := Nat.mod_eq_of_lt hptr
  rw [nvmeReadIdentify_nonempty env fd nsid cns data w hne, e1]
  exact ⟨rfl, rfl, rfl, fun h => Nat.mod_eq_of_lt h⟩

theorem nvmeReadIdentify_builds_witness :
    (([7] : List Nat) ≠ [] ∧ (0xc000010000 : Nat) < 2 ^ 64) ∧
    (nvmeReadIdentify demoEnv 3 0 1 ⟨0xc000010000, [7]⟩ w0).1 = .ret none ∧
    (nvmeReadIdentify demoEnv 3 0 1 ⟨0xc000010000, [7]⟩ w0).2.2.log.length = 1 :=
  ⟨by decide,
   (nvmeReadIdentify_builds demoEnv 3 0 1 ⟨0xc000010000, [7]⟩ w0 (by decide) (by decide)).1,
   by decide⟩

/-- C8 as stated fails: for a buffer of `2 ^ 32` bytes the command carries
`dataLen = 0`, not the length of the buffer. -/
theorem nvmeReadIdentify_dataLen_wraps :
    bigBuf.elems ≠ [] ∧ bigBuf.elems.length = 4294967296 ∧
    (nvmeReadIdentify demoEnv 3 0 1 bigBuf w0).2.2.log.map (fun ev => ev.call.cmd.dataLen)
      = [0] := by
  have hl : bigBuf.elems.length = 4294967296 := by
    simp only [bigBuf, List.length_replicate]
    rfl
  have hne : bigBuf.elems ≠ [] := by
    intro h
    have h2 := congrArg List.length h
    rw [hl] at h2
    exact absurd h2 (by decide)
  refine ⟨hne, hl, ?_⟩
  rw [nvmeReadIdentify_nonempty demoEnv 3 0 1 bigBuf w0 hne, hl]
  rfl

/-- C9: with every field aligned to its own size, the fields of
`nvmePassthruCmd64` lie at the offsets 0, 1, 2, 4, 8, 12, 16, 24, 32, 36, 40,
44, 48, 52, 56, 60, then `timeoutMs` at 64, the second blank field at 68 and
`result` at 72, with no padding in front of any field; the size of the struct,
which is the size argument of `iowr` in `nvmeIoctlAdmin64Cmd`, is 80. -/
theorem nvmePassthruCmd64_layout (env : Env) :
    layoutFrom 0 nvmePassthruCmd64Fields =
      [("opcode", 0), ("flags", 1), ("rsvd1", 2), ("nsid", 4), ("cdw2", 8), ("cdw3", 12),
       ("metadata", 16), ("addr", 24), ("metadataLen", 32), ("dataLen", 36),
       ("cdw10", 40), ("cdw11", 44), ("cdw12", 48), ("cdw13", 52), ("cdw14", 56),
       ("cdw15", 60), ("timeoutMs", 64), ("rsvd2", 68), ("result", 72)] ∧
    (∀ p ∈ paddingFrom 0 nvmePassthruCmd64Fields, p = 0) ∧
    endFrom 0 nvmePassthruCmd64Fields = 80 ∧
    sizeofCmd = 80 ∧
    nvmeIoctlAdmin64Cmd env = env.iowr 78 0x47 80 := by
  refine ⟨by decide, by decide, by decide, by decide, ?_⟩
  have h : sizeofCmd = 80 := by decide
  unfold nvmeIoctlAdmin64Cmd
  rw [h]

/-- C10: for every device, `ReadSMART` issues exactly one control request, a
Get-Log-Page command with `nsid = 0xffffffff`, `dataLen = 512` and
`cdw10 = logID | (127 << 16)` on a buffer of 512 zero bytes; it never panics,
and its result is decided by that request and the decode alone: the error of
the request, else the error of the decode, else the decoded log. The size check
of `nvmeReadLogPage` never fails for it. -/
theorem ReadSMART_one_request (env : Env) (d : NVMeDevice) (w : World)
    (hid : env.nvmeLogSmartInformation < 256) :
    (ReadSMART env d w).2.log =
      w.log ++ [⟨smartCall env d.fd w.allocs,
        env.driver w.log (smartCall env d.fd w.allocs)⟩] ∧
    smartCall env d.fd w.allocs =
      ⟨toUintptr env.intBits d.fd, nvmeIoctlAdmin64Cmd env,
       { opcode := env.nvmeAdminGetLogPage, flags := 0, rsvd1 := 0, nsid := 0xffffffff,
         cdw2 := 0, cdw3 := 0, metadata := 0, addr := toUint64 (env.heapAddr w.allocs),
         metadataLen := 0, dataLen := 512,
         cdw10 := env.nvmeLogSmartInformation ||| (127 <<< 16),
         cdw11 := 0, cdw12 := 0, cdw13 := 0, cdw14 := 0, cdw15 := 0,
         timeoutMs := 0, rsvd2 := 0, result := 0 },
       List.replicate 512 0⟩ ∧
    (ReadSMART env d w).1 =
      (match (env.driver w.log (smartCall env d.fd w.allocs)).err with
       | some e => .ret (none, some e)
       | none =>
         match env.readSMARTLog (overlay (List.replicate 512 0)
            (env.driver w.log (smartCall env d.fd w.allocs)).written) with
         | .error e => .ret (none, some e)
         | .ok sl => .ret (some sl, none)) ∧
    (¬ ((List.replicate 512 0).length < 4 ∨ (List.replicate 512 0).length > 16384 ∨
        (List.replicate 512 0).length % 4 ≠ 0)) ∧
    (∀ m, (ReadSMART env d w).1 ≠ .panic m) ∧
    (∀ sl e, (ReadSMART env d w).1 = .ret (sl, some e) →
      (env.driver w.log (smartCall env d.fd w.allocs)).err = some e ∨
      env.readSMARTLog (overlay (List.replicate 512 0)
        (env.driver w.log (smartCall env d.fd w.allocs)).written) = .error e) := by
  have hc : logPageCdw10 env.nvmeLogSmartInformation 512 =
      env.nvmeLogSmartInformation ||| (127 <<< 16) :=
    logPageCdw10_eq_lor env.nvmeLogSmartInformation 512 hid (by decide) (by decide)
  rw [ReadSMART_eq]
  refine ⟨rfl, ?_, rfl, ?_, ?_, ?_⟩
  · unfold smartCall
    rw [hc]
    rfl
  · rw [List.length_replicate]
    decide
  · intro m
    simp only [smartFinish]
    split
    · exact fun h => Outcome.noConfusion h
    · split
      · exact fun h => Outcome.noConfusion h
      · exact fun h => Outcome.noConfusion h
  · intro sl e
    simp only [smartFinish]
    split
    · rename_i e1 he1
      intro h
      simp only [Outcome.ret.injEq, Prod.mk.injEq, Option.some.injEq] at h
      left
      rw [he1, h.2]
    · split
      · rename_i e1 he1
        intro h
        simp only [Outcome.ret.injEq, Prod.mk.injEq, Option.some.injEq] at h
        right
        rw [he1, h.2]
      · intro h
        simp only [Outcome.ret.injEq, Prod.mk.injEq] at h
        exact Option.noConfusion h.2

theorem ReadSMART_one_request_witness :
    demoEnv.nvmeLogSmartInformation < 256 ∧
    (ReadSMART demoEnv ⟨3⟩ w0).1 = .ret (some ⟨[1]⟩, none) ∧
    (ReadSMART demoEnv ⟨3⟩ w0).2.log =
      w0.log ++ [⟨smartCall demoEnv 3 w0.allocs,
        demoEnv.driver w0.log (smartCall demoEnv 3 w0.allocs)⟩] :=
  ⟨by decide,
   by
     rw [(ReadSMART_one_request demoEnv ⟨3⟩ w0 (by decide)).2.2.1]
     decide,
   (ReadSMART_one_request demoEnv ⟨3⟩ w0 (by decide)).1⟩

end Smart
